import Mathlib

/-!
Shallow embedding of `src/oauthenticator/cilogon.py` (CILogonOAuthenticator and
LocalCILogonMapOAuthenticator).  Python strings are modelled as lists of
characters, Python dicts as insertion-ordered association lists, and the two
mutable attributes `prev_map_tracker`/`username_map` of the mapping
authenticator as an explicit state record threaded through the call.
-/

/-- Python strings are modelled as lists of characters. -/
abbrev Str : Type := List Char

/-- Convert a Lean string literal to its character-list model. -/
def str (s : String) : Str := s.toList

/-- A Python dict with string keys and values, as an insertion-ordered
association list (keys unique, first occurrence is the stored slot). -/
abbrev Dict : Type := List (Str × Str)

/-- Python dict assignment `d[k] = v`: overwrite the existing slot in place if
the key is present, otherwise append the new pair at the end. -/
def dinsert : Dict → Str → Str → Dict
  | [], k, v => [(k, v)]
  | (k0, v0) :: rest, k, v =>
      if k0 = k then (k, v) :: rest else (k0, v0) :: dinsert rest k v

/-- Python `d.get(k)`: the value stored for `k`, if any. -/
def dget : Dict → Str → Option Str
  | [], _ => none
  | (k0, v0) :: rest, k => if k0 = k then some v0 else dget rest k

/-- Python `str.lower()` restricted to the ASCII case mapping. -/
def lower (s : Str) : Str := s.map Char.toLower

/-- Python `str.split()` with no separator: whitespace-delimited tokens with
empty tokens dropped. -/
def splitWs (s : Str) : List Str :=
  (List.splitOnP Char.isWhitespace s).filter (fun t => !t.isEmpty)

/-- Python `str.split(sep)` for a one-character separator: empty fields are
kept, so the number of fields is always one more than the number of
separators. -/
def pySplit (sep : Char) : Str → List Str
  | [] => [[]]
  | c :: cs =>
      if c = sep then [] :: pySplit sep cs
      else
        match pySplit sep cs with
        | [] => [[c]]
        | t :: ts => (c :: t) :: ts

example : pySplit '@' (str "a@b") = [str "a", str "b"] := by decide

example : splitWs (str " alice  local1 ") = [str "alice", str "local1"] := by decide

example : dget (dinsert (dinsert [] (str "a") (str "x")) (str "a") (str "y")) (str "a") =
    some (str "y") := by decide

/-- Configuration of `CILogonOAuthenticator` consumed by `authenticate`. -/
structure Config where
  username_claim : Str
  additional_username_claims : List Str
  idp_whitelist : List Str
  strip_idp_domain : Bool
  deriving DecidableEq

/-- Lines 172-174: `claimlist = [self.username_claim]`, extended with
`additional_username_claims` (extending with the empty list is a no-op, so the
truthiness guard in the source is dropped without change of meaning). -/
def claimlist (cfg : Config) : List Str :=
  cfg.username_claim :: cfg.additional_username_claims

/-- Python truthiness of `resp_json.get(claim)`: the claim is present and its
string value is non-empty. -/
def isTruthy : Option Str → Bool
  | some v => !v.isEmpty
  | none => false

/-- Lines 176-179: the resolution loop.  `username = resp_json.get(claim)` for
each claim in order, breaking at the first truthy value; `none` models the
fall-through in which no claim produced a truthy value (the loop leaves a falsy
`username` behind and line 180 raises). -/
def firstTruthy (resp : Dict) : List Str → Option Str
  | [] => none
  | c :: cs =>
      match dget resp c with
      | some v => if v.isEmpty then firstTruthy resp cs else some v
      | none => firstTruthy resp cs

/-- The failure modes of `authenticate` after the HTTP exchanges:
`identity_resolution` is the `web.HTTPError(500, "Failed to get username from
CILogon")` at line 188, `idp_rejected` the `HTTPError(500, "Trying to login
from not whitelisted domain")` at line 195, and `malformed_username` the
uncaught `ValueError` raised by the tuple unpacking
`gotten_name, gotten_idp = username.split('@')` at line 191 when the split
does not yield exactly two parts. -/
inductive AuthError where
  | identity_resolution
  | idp_rejected
  | malformed_username
  deriving DecidableEq

/-- Result of the post-HTTP part of `authenticate`: the final username or the
error that aborted the login. -/
inductive AuthOutcome where
  | ok (username : Str)
  | err (e : AuthError)
  deriving DecidableEq

/-- Lines 190-198: the identity-provider allow-list filter.  When
`idp_whitelist` is truthy (non-empty) the username is split on `'@'` and
unpacked into `(gotten_name, gotten_idp)` — a `ValueError` unless there are
exactly two parts —, a non-whitelisted `gotten_idp` raises, and the local part
is kept only when the whitelist has exactly one entry and `strip_idp_domain`
is set. -/
def idp_filter (cfg : Config) (username : Str) : AuthOutcome :=
  if cfg.idp_whitelist.isEmpty then .ok username
  else
    match pySplit '@' username with
    | [gotten_name, gotten_idp] =>
        if gotten_idp ∈ cfg.idp_whitelist then
          if cfg.idp_whitelist.length = 1 ∧ cfg.strip_idp_domain then .ok gotten_name
          else .ok username
        else .err .idp_rejected
    | _ => .err .malformed_username

/-- Lines 172-198 of `CILogonOAuthenticator.authenticate`, after the two HTTP
exchanges: resolve the username from the userinfo response `resp_json` via the
claim list, then apply the allow-list filter.  (Lines 199-210 only pack the
unchanged username together with the auth-state payload.) -/
def authenticate_post (cfg : Config) (resp_json : Dict) : AuthOutcome :=
  match firstTruthy resp_json (claimlist cfg) with
  | none => .err .identity_resolution
  | some username => idp_filter cfg username

example :
    authenticate_post ⟨str "eppn", [str "email"], [], false⟩ [(str "email", str "a@b.com")] =
      .ok (str "a@b.com") := by decide

example :
    authenticate_post ⟨str "eppn", [], [str "email.com"], true⟩ [(str "eppn", str "fake@email.com")] =
      .ok (str "fake") := by decide

example :
    authenticate_post ⟨str "eppn", [], [str "email.com"], true⟩ [(str "eppn", str "x@other.com")] =
      .err .idp_rejected := by decide

example :
    authenticate_post ⟨str "eppn", [], [str "email.com"], true⟩ [(str "eppn", str "noatsign")] =
      .err .malformed_username := by decide

/-- The shape of a tornado `HTTPRequest` as constructed by `authenticate`. -/
structure HTTPRequestModel where
  url : Str
  method : Str
  headers : List (Str × Str)
  body : Str
  deriving DecidableEq

/-- Form/query encoding of a parameter list, `k1=v1&k2=v2&...`, modelling
`urllib.parse.urlencode` (as used by tornado's `url_concat`) for parameter
strings made of unreserved characters, for which percent-escaping is the
identity. -/
def formEncode : List (Str × Str) → Str
  | [] => []
  | [(k, v)] => k ++ '=' :: v
  | (k, v) :: rest => (k ++ '=' :: v ++ ['&']) ++ formEncode rest

/-- Tornado `url_concat`: append the encoded parameters to the URL as its
query string. -/
def url_concat (url : Str) (params : List (Str × Str)) : Str :=
  if params.isEmpty then url else url ++ '?' :: formEncode params

/-- Lines 138-141: the headers dict sent on the token exchange. -/
def cilogon_headers : List (Str × Str) :=
  [(str "Accept", str "application/json"), (str "User-Agent", str "JupyterHub")]

/-- Lines 143-149: the token-exchange parameter dict, in source insertion
order. -/
def token_params (client_id client_secret redirect_uri code : Str) : List (Str × Str) :=
  [(str "client_id", client_id),
   (str "client_secret", client_secret),
   (str "redirect_uri", redirect_uri),
   (str "code", code),
   (str "grant_type", str "authorization_code")]

/-- Lines 151-157: the token-exchange request.  The parameters are appended to
the token URL by `url_concat` and the request is built with `method="POST"`
and `body=''` (the host is the default `cilogon.org`, used when the
`CILOGON_HOST` environment variable is unset). -/
def token_request (client_id client_secret redirect_uri code : Str) : HTTPRequestModel :=
  { url := url_concat (str "https://cilogon.org/oauth2/token")
      (token_params client_id client_secret redirect_uri code),
    method := str "POST",
    headers := cilogon_headers,
    body := [] }

example : (token_request (str "i") (str "s") (str "r") (str "c")).body = [] := by decide

/-- The mutable state of `LocalCILogonMapOAuthenticator`: the class attributes
`prev_map_mtime` (initially `0`) and `username_map` (initially empty),
lines 247-248. -/
structure MapState where
  prev_map_mtime : Nat
  username_map : Dict
  deriving DecidableEq

/-- The external mapping file as observed during one `normalize_username`
call: the `st_mtime` returned by `os.stat` and the file's lines. -/
structure MapFile where
  mtime : Nat
  lines : List Str
  deriving DecidableEq

/-- One iteration of the reload loop, lines 266-267: split the line on
whitespace and store `names[0].lower() -> names[1].lower()`; with fewer than
two tokens the subscript raises `IndexError` (`none`), and no assignment
happens for that line. -/
def load_line (m : Dict) (line : Str) : Option Dict :=
  match splitWs line with
  | n0 :: n1 :: _ => some (dinsert m (lower n0) (lower n1))
  | _ => none

/-- The reload loop over the file's lines, lines 264-267.  The boolean records
whether the loop ran to completion; on an `IndexError` the insertions made for
the earlier lines persist (the dict is mutated in place, line by line). -/
def load_lines (m : Dict) : List Str → Dict × Bool
  | [] => (m, true)
  | line :: rest =>
      match load_line m line with
      | some m2 => load_lines m2 rest
      | none => (m, false)

/-- Lines 269-274: lower-case the username, strip it through
`re.sub(self.name_regex, '', ·)` (abstracted as `name_sub`) unless
`full_names` is set, and look it up in the table with the normalized name
itself as the default. -/
def normalize_lookup (full_names : Bool) (name_sub : Str → Str) (m : Dict) (username : Str) :
    Str :=
  let u := if full_names then lower username else name_sub (lower username)
  (dget m u).getD u

/-- Outcome of one `normalize_username` call: the state left behind, the
result (`none` models the call raising `IndexError` out of the reload loop),
the number of `os.stat` calls performed, and whether the mtime comparison
triggered a reload. -/
structure NormResult where
  state : MapState
  result : Option Str
  stat_calls : Nat
  rebuilt : Bool
  deriving DecidableEq

/-- `LocalCILogonMapOAuthenticator.normalize_username`, lines 250-274.  One
`os.stat` (line 260); if the observed mtime strictly exceeds
`prev_map_mtime`, the latter is set to the observed value *before* the file is
read (lines 262-263) and the reload loop mutates `username_map` in place; if
the loop raises, the exception propagates with the partially-updated state
left behind.  Otherwise the username is normalized and looked up.
`name_sub` stands for `re.sub(self.name_regex, '', ·)`; the default
`name_regex` is embedded as `strip_default` below. -/
def normalize_username (full_names : Bool) (name_sub : Str → Str)
    (fs : MapFile) (st : MapState) (username : Str) : NormResult :=
  if fs.mtime > st.prev_map_mtime then
    match load_lines st.username_map fs.lines with
    | (m, true) =>
        { state := ⟨fs.mtime, m⟩,
          result := some (normalize_lookup full_names name_sub m username),
          stat_calls := 1, rebuilt := true }
    | (m, false) =>
        { state := ⟨fs.mtime, m⟩, result := none, stat_calls := 1, rebuilt := true }
  else
    { state := st,
      result := some (normalize_lookup full_names name_sub st.username_map username),
      stat_calls := 1, rebuilt := false }

/-- Python `re.sub` applied with the default `name_regex` of line 237 (the
pattern at-sign, dot-star, dollar) and empty replacement: `'.'` does not match
a newline and the unanchored `'$'` matches at the end of the string or just
before a sole trailing newline, so a match starts at the leftmost `'@'` that
is followed by no newline other than a trailing one, consumes everything up to
that trailing newline or the end, and no further match remains. -/
def strip_default : Str → Str
  | [] => []
  | c :: cs =>
      if c = '@' ∧ '\n' ∉ cs.dropLast then
        if cs.getLast? = some '\n' then ['\n'] else []
      else c :: strip_default cs

example : strip_default (str "fake@email.com") = str "fake" := by decide

example : strip_default (str "a@b\nc") = str "a@b\nc" := by decide

example : strip_default (str "x@\n") = str "x\n" := by decide

example : strip_default (str "a@b\nc@d") = str "a@b\nc" := by decide

example :
    (normalize_username false strip_default ⟨1, [str "alice local1"]⟩ ⟨0, []⟩
      (str "Alice@x.com")).result = some (str "local1") := by decide

example :
    (normalize_username false strip_default ⟨1, [str "a x", str "\n"]⟩ ⟨0, []⟩
      (str "a")).result = none := by decide

/-- The key/value pair a well-formed mapping-file line contributes: the first
two whitespace-separated tokens, lower-cased (tokens past the second are
ignored by the source). -/
def line_pair (line : Str) : Str × Str :=
  match splitWs line with
  | n0 :: n1 :: _ => (lower n0, lower n1)
  | _ => ([], [])

/-- The pairs contributed by a file's lines, in file order. -/
def file_pairs (lines : List Str) : List (Str × Str) := lines.map line_pair

/-- The value the *last* occurrence of a key in a pair list binds it to. -/
def last_wins : List (Str × Str) → Str → Option Str
  | [], _ => none
  | p :: rest, k =>
      match last_wins rest k with
      | some v => some v
      | none => if p.1 = k then some p.2 else none

theorem dget_dinsert (m : Dict) (k a b : Str) :
    dget (dinsert m a b) k = if a = k then some b else dget m k := by
  induction m with
  | nil => simp [dinsert, dget]
  | cons p rest ih =>
      obtain ⟨k0, v0⟩ := p
      by_cases h0 : k0 = a
      · subst h0
        by_cases hk : k0 = k <;> simp [dinsert, dget, hk]
      · by_cases hk : k0 = k
        · subst hk
          simp [dinsert, dget, h0, Ne.symm h0]
        · simp [dinsert, dget, h0, hk, ih]

theorem firstTruthy_eq_none (resp : Dict) :
    ∀ cl : List Str, (∀ c ∈ cl, isTruthy (dget resp c) = false) →
      firstTruthy resp cl = none := by
  intro cl
  induction cl with
  | nil => intro _; rfl
  | cons c cs ih =>
      intro h
      have hc := h c (by simp)
      cases hv : dget resp c with
      | none => simpa [firstTruthy, hv] using ih fun p hp => h p (by simp [hp])
      | some v =>
          rw [hv] at hc
          simp only [isTruthy, Bool.not_eq_false'] at hc
          simpa [firstTruthy, hv, hc] using ih fun p hp => h p (by simp [hp])

theorem firstTruthy_first (resp : Dict) (pre : List Str) (c : Str) (post : List Str) (u : Str)
    (hpre : ∀ p ∈ pre, isTruthy (dget resp p) = false)
    (hc : dget resp c = some u) (hu : u ≠ []) :
    firstTruthy resp (pre ++ c :: post) = some u := by
  induction pre with
  | nil =>
      cases u with
      | nil => exact absurd rfl hu
      | cons a l => simp [firstTruthy, hc]
  | cons p ps ih =>
      have hp := hpre p (by simp)
      have ih2 := ih fun q hq => hpre q (by simp [hq])
      cases hv : dget resp p with
      | none => simpa [firstTruthy, hv] using ih2
      | some v =>
          rw [hv] at hp
          simp only [isTruthy, Bool.not_eq_false'] at hp
          simpa [firstTruthy, hv, hp] using ih2

theorem pySplit_length (sep : Char) (s : Str) :
    (pySplit sep s).length = s.count sep + 1 := by
  induction s with
  | nil => simp [pySplit]
  | cons c cs ih =>
      by_cases h : c = sep
      · subst h
        simp [pySplit, List.count_cons, ih]
      · cases hp : pySplit sep cs with
        | nil => rw [hp] at ih; simp at ih
        | cons t ts =>
            rw [hp] at ih
            simp only [pySplit, if_neg h, hp]
            simp only [List.length_cons] at ih ⊢
            rw [List.count_cons]
            simp [h, ih]

theorem pySplit_no_sep (sep : Char) (s : Str) (h : sep ∉ s) : pySplit sep s = [s] := by
  induction s with
  | nil => rfl
  | cons c cs ih =>
      have hc : ¬ c = sep := fun hh => h (by simp [hh])
      have hcs : sep ∉ cs := fun hh => h (by simp [hh])
      simp [pySplit, hc, ih hcs]

theorem pySplit_two (l sfx : Str) (hl : '@' ∉ l) (hs : '@' ∉ sfx) :
    pySplit '@' (l ++ '@' :: sfx) = [l, sfx] := by
  induction l with
  | nil => simp [pySplit, pySplit_no_sep '@' sfx hs]
  | cons c cs ih =>
      have hc : ¬ c = '@' := fun hh => hl (by simp [hh])
      have hcs : '@' ∉ cs := fun hh => hl (by simp [hh])
      simp [pySplit, hc, ih hcs]

theorem load_lines_all_good (lines : List Str)
    (hg : ∀ line ∈ lines, 2 ≤ (splitWs line).length) (m : Dict) :
    load_lines m lines =
      (lines.foldl (fun m2 line => dinsert m2 (line_pair line).1 (line_pair line).2) m,
        true) := by
  induction lines generalizing m with
  | nil => simp [load_lines]
  | cons line rest ih =>
      have h2 := hg line (by simp)
      cases hs : splitWs line with
      | nil => rw [hs] at h2; simp at h2
      | cons n0 t =>
          cases t with
          | nil => rw [hs] at h2; simp at h2
          | cons n1 t2 =>
              simp only [load_lines, load_line, hs, line_pair, List.foldl_cons]
              exact ih (fun q hq => hg q (by simp [hq])) _

theorem dget_foldl_dinsert (ps : List (Str × Str)) (m : Dict) (k : Str) :
    dget (ps.foldl (fun m2 p => dinsert m2 p.1 p.2) m) k =
      (last_wins ps k).or (dget m k) := by
  induction ps generalizing m with
  | nil => simp [last_wins]
  | cons p ps ih =>
      simp only [List.foldl_cons, last_wins]
      rw [ih]
      cases hl : last_wins ps k with
      | some v => simp
      | none =>
          rw [dget_dinsert]
          by_cases hpk : p.1 = k <;> simp [hpk]

theorem normalize_mtime_le (f : Bool) (ns : Str → Str) (fs : MapFile) (st : MapState)
    (u : Str) :
    fs.mtime ≤ (normalize_username f ns fs st u).state.prev_map_mtime := by
  unfold normalize_username
  split
  · split <;> simp
  · next h => exact Nat.le_of_not_lt h

theorem normalize_result_spec (f : Bool) (ns : Str → Str) (fs : MapFile) (st : MapState)
    (u : Str) (h : (normalize_username f ns fs st u).result ≠ none) :
    (normalize_username f ns fs st u).result =
      some (normalize_lookup f ns (normalize_username f ns fs st u).state.username_map u) := by
  unfold normalize_username at h ⊢
  by_cases hm : fs.mtime > st.prev_map_mtime
  · rw [if_pos hm] at h ⊢
    cases hl : load_lines st.username_map fs.lines with
    | mk m2 ok =>
        cases ok
        · rw [hl] at h; simp at h
        · rfl
  · rw [if_neg hm]

theorem strip_default_no_newline (v : Str) (h : '\n' ∉ v) :
    strip_default v = v.takeWhile (fun c => c ≠ '@') := by
  induction v with
  | nil => rfl
  | cons c cs ih =>
      have hcs : '\n' ∉ cs := fun hh => h (by simp [hh])
      by_cases ha : c = '@'
      · have h1 : '\n' ∉ cs.dropLast := fun hh => hcs (List.dropLast_subset cs hh)
        have h2 : ¬ cs.getLast? = some '\n' := fun hg =>
          hcs (List.mem_of_getLast?_eq_some hg)
        simp [strip_default, ha, h1, h2, List.takeWhile_cons]
      · simp [strip_default, ha, List.takeWhile_cons, ih hcs]

theorem normalize_noreload (f : Bool) (ns : Str → Str) (fs : MapFile) (st : MapState)
    (u : Str) (h : ¬ fs.mtime > st.prev_map_mtime) :
    normalize_username f ns fs st u =
      { state := st, result := some (normalize_lookup f ns st.username_map u),
        stat_calls := 1, rebuilt := false } := by
  unfold normalize_username
  rw [if_neg h]

theorem normalize_rebuilt_iff (f : Bool) (ns : Str → Str) (fs : MapFile) (st : MapState)
    (u : Str) :
    (normalize_username f ns fs st u).rebuilt = true ↔ fs.mtime > st.prev_map_mtime := by
  unfold normalize_username
  by_cases hm : fs.mtime > st.prev_map_mtime
  · rw [if_pos hm]
    cases hl : load_lines st.username_map fs.lines with
    | mk m2 ok => cases ok <;> simp [hm]
  · rw [if_neg hm]
    simp [hm]

theorem load_lines_partial (good : List Str) (bad : Str) (rest : List Str)
    (hg : ∀ line ∈ good, 2 ≤ (splitWs line).length)
    (hb : (splitWs bad).length < 2) (m : Dict) :
    load_lines m (good ++ bad :: rest) =
      (good.foldl (fun m2 line => dinsert m2 (line_pair line).1 (line_pair line).2) m,
        false) := by
  induction good generalizing m with
  | nil =>
      simp only [List.nil_append, List.foldl_nil, load_lines]
      cases hs : splitWs bad with
      | nil => simp [load_line, hs]
      | cons a t =>
          cases t with
          | nil => simp [load_line, hs]
          | cons b t2 =>
              rw [hs] at hb
              simp only [List.length_cons] at hb
              omega
  | cons g gs ih =>
      have h2 := hg g (by simp)
      cases hs : splitWs g with
      | nil => rw [hs] at h2; simp at h2
      | cons n0 t =>
          cases t with
          | nil => rw [hs] at h2; simp at h2
          | cons n1 t2 =>
              simp only [List.cons_append, load_lines, load_line, hs, List.foldl_cons,
                line_pair]
              exact ih (fun q hq => hg q (by simp [hq])) _

/-- C1: for every configuration (whose claim list is non-empty by
construction, the primary claim followed by the configured fallbacks) and
every userinfo response, `authenticate` resolves the username to the value of
the first claim in list order whose value in the response is present and
truthy, stopping at that match and handing exactly that value to the
allow-list filter; if no listed claim yields a truthy value, it fails with the
identity-resolution error (`web.HTTPError(500, ...)`, line 188) and never
defaults the username. -/
theorem C1_claim_resolution (cfg : Config) (resp : Dict) :
    ((∀ c ∈ claimlist cfg, isTruthy (dget resp c) = false) →
        authenticate_post cfg resp = .err .identity_resolution) ∧
    (∀ pre c post u, claimlist cfg = pre ++ c :: post →
        (∀ p ∈ pre, isTruthy (dget resp p) = false) →
        dget resp c = some u → u ≠ [] →
        authenticate_post cfg resp = idp_filter cfg u) := by
  constructor
  · intro h
    unfold authenticate_post
    rw [firstTruthy_eq_none resp _ h]
  · intro pre c post u hcl hpre hc hu
    unfold authenticate_post
    rw [hcl, firstTruthy_first resp pre c post u hpre hc hu]

/-- C1 witness: with claim list `[eppn, email]` and a response carrying only
`email`, authentication resolves to the email value (and with an empty
allow-list returns it unchanged). -/
theorem C1_witness :
    authenticate_post ⟨str "eppn", [str "email"], [], false⟩
      [(str "email", str "a@b.com")] = .ok (str "a@b.com") := by
  have h := (C1_claim_resolution ⟨str "eppn", [str "email"], [], false⟩
      [(str "email", str "a@b.com")]).2 [str "eppn"] (str "email") [] (str "a@b.com")
      (by decide) (by decide) (by decide) (by decide)
  rw [h]
  decide

/-- C2: for a resolved username of the shape localpart-at-suffix, a non-empty
allow-list rejects a non-listed suffix with the policy error and otherwise
strips the suffix exactly when the allow-list has exactly one entry and the
strip flag is set; an empty allow-list passes any username through untouched,
with no shape requirement. -/
theorem C2_allowlist_filter (cfg : Config) :
    (cfg.idp_whitelist = [] → ∀ u, idp_filter cfg u = .ok u) ∧
    (∀ l sfx, cfg.idp_whitelist ≠ [] → '@' ∉ l → '@' ∉ sfx →
      ((sfx ∉ cfg.idp_whitelist →
          idp_filter cfg (l ++ '@' :: sfx) = .err .idp_rejected) ∧
       (sfx ∈ cfg.idp_whitelist →
          idp_filter cfg (l ++ '@' :: sfx) =
            .ok (if cfg.idp_whitelist.length = 1 ∧ cfg.strip_idp_domain then l
                 else l ++ '@' :: sfx)))) := by
  constructor
  · intro he u
    simp [idp_filter, he]
  · intro l sfx hne hl hs
    have hsplit := pySplit_two l sfx hl hs
    constructor
    · intro hmem
      simp [idp_filter, hsplit, hmem, List.isEmpty_iff, hne]
    · intro hmem
      by_cases hc : cfg.idp_whitelist.length = 1 ∧ cfg.strip_idp_domain
      · simp [idp_filter, hsplit, hmem, List.isEmpty_iff, hne, hc]
      · simp [idp_filter, hsplit, hmem, List.isEmpty_iff, hne, hc]

/-- C2 witness: the spec's example instances, allow-list `["email.com"]` with
strip set: `fake@email.com` is filtered to `fake`, and `x@other.com` is
rejected. -/
theorem C2_witness :
    idp_filter ⟨str "eppn", [], [str "email.com"], true⟩ (str "fake@email.com") =
        .ok (str "fake") ∧
      idp_filter ⟨str "eppn", [], [str "email.com"], true⟩ (str "x@other.com") =
        .err .idp_rejected := by
  constructor
  · have h := ((C2_allowlist_filter ⟨str "eppn", [], [str "email.com"], true⟩).2
        (str "fake") (str "email.com") (by decide) (by decide) (by decide)).2 (by decide)
    have he : str "fake@email.com" = str "fake" ++ '@' :: str "email.com" := by decide
    rw [he, h]
    decide
  · have h := ((C2_allowlist_filter ⟨str "eppn", [], [str "email.com"], true⟩).2
        (str "x") (str "other.com") (by decide) (by decide) (by decide)).1 (by decide)
    have he : str "x@other.com" = str "x" ++ '@' :: str "other.com" := by decide
    rw [he, h]

/-- C8: when the allow-list is non-empty, a resolved username that does not
contain exactly one at-sign makes the tuple unpacking at line 191 raise (the
malformed-username failure); the username is neither accepted nor silently
transformed. -/
theorem C8_malformed_username (cfg : Config) (u : Str)
    (hw : cfg.idp_whitelist ≠ []) (hc : u.count '@' ≠ 1) :
    idp_filter cfg u = .err .malformed_username := by
  have hlen : (pySplit '@' u).length ≠ 2 := by
    rw [pySplit_length]
    omega
  unfold idp_filter
  rw [if_neg (by simpa [List.isEmpty_iff] using hw)]
  cases hp : pySplit '@' u with
  | nil => rfl
  | cons a t =>
      cases t with
      | nil => rfl
      | cons b t2 =>
          cases t2 with
          | nil => rw [hp] at hlen; simp at hlen
          | cons d t3 => rfl

/-- C8 witness: with allow-list `["email.com"]`, a username without an at-sign
and one with two at-signs both fail as malformed. -/
theorem C8_witness :
    idp_filter ⟨str "eppn", [], [str "email.com"], true⟩ (str "noatsign") =
        .err .malformed_username ∧
      idp_filter ⟨str "eppn", [], [str "email.com"], true⟩ (str "a@b@c") =
        .err .malformed_username := by
  exact ⟨C8_malformed_username ⟨str "eppn", [], [str "email.com"], true⟩ (str "noatsign")
      (by decide) (by decide),
    C8_malformed_username ⟨str "eppn", [], [str "email.com"], true⟩ (str "a@b@c")
      (by decide) (by decide)⟩

/-- C7 counterexample: the claim states that the token-exchange POST carries
the URL-encoded form parameters in its request body; in the source (lines
151-157) the parameters are appended to the URL by `url_concat` and the body
is the empty string, so at a concrete input the body differs from the form
encoding of the parameters and the encoded parameters sit in the URL
instead. -/
theorem C7_counterexample :
    (token_request (str "id") (str "sec") (str "cb") (str "abc")).body ≠
        formEncode (token_params (str "id") (str "sec") (str "cb") (str "abc")) ∧
      (token_request (str "id") (str "sec") (str "cb") (str "abc")).url =
        str "https://cilogon.org/oauth2/token" ++
          '?' :: formEncode (token_params (str "id") (str "sec") (str "cb") (str "abc")) := by
  constructor
  · decide
  · decide

/-- C7 amended: the token exchange sends a POST to the token endpoint whose
URL carries the URL-encoded parameters `client_id`, `client_secret`,
`redirect_uri`, `code` and `grant_type=authorization_code` as its query
string, with an empty request body, and with headers `Accept:
application/json` and the product `User-Agent: JupyterHub`. -/
theorem C7_token_request (client_id client_secret redirect_uri code : Str) :
    (token_request client_id client_secret redirect_uri code).method = str "POST" ∧
    (token_request client_id client_secret redirect_uri code).headers =
      [(str "Accept", str "application/json"), (str "User-Agent", str "JupyterHub")] ∧
    (token_request client_id client_secret redirect_uri code).body = [] ∧
    (token_request client_id client_secret redirect_uri code).url =
      str "https://cilogon.org/oauth2/token" ++
        '?' :: formEncode (token_params client_id client_secret redirect_uri code) ∧
    token_params client_id client_secret redirect_uri code =
      [(str "client_id", client_id), (str "client_secret", client_secret),
       (str "redirect_uri", redirect_uri), (str "code", code),
       (str "grant_type", str "authorization_code")] := by
  refine ⟨rfl, rfl, rfl, ?_, rfl⟩
  rfl

/-- C6: whenever a `normalize_username` call completes (the reload step does
not raise), the returned name is obtained by lower-casing the input,
additionally applying the configured strip substitution when `full_names` is
false, and looking the normalized name up in the (post-reload) table, with the
normalized name itself returned when no mapping entry exists — a missing entry
is a pass-through, not an error. -/
theorem C6_normalize (full_names : Bool) (name_sub : Str → Str) (fs : MapFile)
    (st : MapState) (u : Str)
    (h : (normalize_username full_names name_sub fs st u).result ≠ none) :
    (normalize_username full_names name_sub fs st u).result =
      some ((dget (normalize_username full_names name_sub fs st u).state.username_map
          (if full_names then lower u else name_sub (lower u))).getD
        (if full_names then lower u else name_sub (lower u))) := by
  rw [normalize_result_spec full_names name_sub fs st u h]
  rfl

/-- C6 witness: the spec's example, a mapping file containing `alice local1`
queried with `Alice@x.com` under the default strip pattern returns `local1`;
an unmapped name passes through lower-cased and stripped. -/
theorem C6_witness :
    (normalize_username false strip_default ⟨1, [str "alice local1"]⟩ ⟨0, []⟩
        (str "Alice@x.com")).result = some (str "local1") ∧
      (normalize_username false strip_default ⟨1, [str "alice local1"]⟩ ⟨0, []⟩
        (str "Bob@x.com")).result = some (str "bob") := by
  constructor
  · have h := C6_normalize false strip_default ⟨1, [str "alice local1"]⟩ ⟨0, []⟩
        (str "Alice@x.com") (by decide)
    rw [h]
    decide
  · have h := C6_normalize false strip_default ⟨1, [str "alice local1"]⟩ ⟨0, []⟩
        (str "Bob@x.com") (by decide)
    rw [h]
    decide

/-- C3 counterexample: the claim promises that the second of two consecutive
calls with no intervening file modification returns the same result as the
first; if the first call's triggered reload raises on a malformed line, the
recorded mtime is already advanced, so the second call does not reload and
returns a value where the first call raised — the results differ. -/
theorem C3_counterexample :
    (normalize_username false strip_default ⟨1, [str "\n"]⟩
        ((normalize_username false strip_default ⟨1, [str "\n"]⟩ ⟨0, []⟩
          (str "a")).state) (str "a")).result ≠
      (normalize_username false strip_default ⟨1, [str "\n"]⟩ ⟨0, []⟩ (str "a")).result := by
  decide

/-- C3 amended: the table is rebuilt only when the file's mtime strictly
exceeds the last-observed value, and for every pair of consecutive
`normalize_username` calls with no intervening file modification the second
call performs exactly one stat, zero rebuilds, and leaves the cache (table and
recorded mtime) unchanged; it returns the same result provided the first call
returned normally (if the first call raised mid-reload, the second still does
not rebuild and leaves the cache unchanged, but returns a value). -/
theorem C3_idempotent (f : Bool) (ns : Str → Str) (fs : MapFile) (st : MapState) (u : Str) :
    ((normalize_username f ns fs st u).rebuilt = true ↔ fs.mtime > st.prev_map_mtime) ∧
    (normalize_username f ns fs (normalize_username f ns fs st u).state u).stat_calls = 1 ∧
    (normalize_username f ns fs (normalize_username f ns fs st u).state u).rebuilt = false ∧
    (normalize_username f ns fs (normalize_username f ns fs st u).state u).state =
      (normalize_username f ns fs st u).state ∧
    ((normalize_username f ns fs st u).result ≠ none →
      (normalize_username f ns fs (normalize_username f ns fs st u).state u).result =
        (normalize_username f ns fs st u).result) := by
  have hle := normalize_mtime_le f ns fs st u
  have hnot : ¬ fs.mtime > (normalize_username f ns fs st u).state.prev_map_mtime :=
    Nat.not_lt.mpr hle
  have h2 := normalize_noreload f ns fs (normalize_username f ns fs st u).state u hnot
  refine ⟨normalize_rebuilt_iff f ns fs st u, ?_, ?_, ?_, ?_⟩
  · rw [h2]
  · rw [h2]
  · rw [h2]
  · intro hres
    rw [h2, normalize_result_spec f ns fs st u hres]

/-- C3 witness: with a well-formed file, an immediate second call does not
rebuild, keeps the cache, and returns the same result as the first. -/
theorem C3_witness :
    (normalize_username false strip_default ⟨1, [str "alice local1"]⟩
        ((normalize_username false strip_default ⟨1, [str "alice local1"]⟩ ⟨0, []⟩
          (str "bob")).state) (str "bob")).result =
      (normalize_username false strip_default ⟨1, [str "alice local1"]⟩ ⟨0, []⟩
        (str "bob")).result :=
  (C3_idempotent false strip_default ⟨1, [str "alice local1"]⟩ ⟨0, []⟩
    (str "bob")).2.2.2.2 (by decide)

/-- C4 counterexample: the claim says a triggered reload rebuilds the table
from the file; in the source the dict is updated in place, so after reloading
a file that maps only `b` the table still holds the entry for `a` inserted
from the previous file — it differs from the table obtained by reading the new
file alone. -/
theorem C4_counterexample :
    dget ((normalize_username false strip_default ⟨2, [str "b c"]⟩
          ((normalize_username false strip_default ⟨1, [str "a x"]⟩ ⟨0, []⟩
            (str "z")).state) (str "z")).state.username_map) (str "a") = some (str "x") ∧
      dget (load_lines [] [str "b c"]).1 (str "a") = none := by
  constructor
  · decide
  · decide

/-- C4 amended: when a reload is triggered (file mtime strictly newer than
last observed) over a file whose lines each split into exactly two
whitespace-separated tokens, the pairs (both tokens lower-cased) are inserted
into the existing table in place with the last occurrence of a duplicate
external key winning, entries for keys absent from the new file persisting
from before the reload, and the recorded mtime is updated to the freshly
observed value. -/
theorem C4_reload (f : Bool) (ns : Str → Str) (fs : MapFile) (st : MapState) (u : Str)
    (h1 : st.prev_map_mtime < fs.mtime)
    (h2 : ∀ line ∈ fs.lines, (splitWs line).length = 2) :
    (normalize_username f ns fs st u).rebuilt = true ∧
    (normalize_username f ns fs st u).state.prev_map_mtime = fs.mtime ∧
    ∀ k, dget (normalize_username f ns fs st u).state.username_map k =
      (last_wins (file_pairs fs.lines) k).or (dget st.username_map k) := by
  have hg : ∀ line ∈ fs.lines, 2 ≤ (splitWs line).length :=
    fun q hq => le_of_eq (h2 q hq).symm
  have hload := load_lines_all_good fs.lines hg st.username_map
  unfold normalize_username
  rw [if_pos h1, hload]
  refine ⟨rfl, rfl, ?_⟩
  intro k
  have hfold : fs.lines.foldl
        (fun m2 line => dinsert m2 (line_pair line).1 (line_pair line).2) st.username_map =
      (file_pairs fs.lines).foldl (fun m2 p => dinsert m2 p.1 p.2) st.username_map := by
    rw [file_pairs, List.foldl_map]
  show dget (fs.lines.foldl
      (fun m2 line => dinsert m2 (line_pair line).1 (line_pair line).2) st.username_map) k = _
  rw [hfold, dget_foldl_dinsert]

/-- C4 witness: reloading a file with lines `A x`, `b y`, `a z` over a table
holding `a -> q` leaves `a` bound to `z`: tokens are lower-cased and the last
occurrence of the duplicate key wins. -/
theorem C4_witness :
    dget ((normalize_username false strip_default
        ⟨1, [str "A x", str "b y", str "a z"]⟩ ⟨0, [(str "a", str "q")]⟩
        (str "u")).state.username_map) (str "a") = some (str "z") := by
  have h := (C4_reload false strip_default ⟨1, [str "A x", str "b y", str "a z"]⟩
      ⟨0, [(str "a", str "q")]⟩ (str "u") (by decide) (by decide)).2.2 (str "a")
  rw [h]
  decide

/-- C5: the claim states that no failure corrupts the mapping cache and that
the table is only replaced wholesale on success of a rebuild; in the source
the recorded mtime is advanced before the file is read and the dict is
mutated line by line, so a reload that raises on a malformed second line
leaves the cache changed: the mtime is advanced and the first line's entry is
present.  This theorem evaluates the code at that failing input. -/
theorem C5_failed_reload_corrupts :
    (normalize_username false strip_default ⟨1, [str "a x", str "\n"]⟩ ⟨0, []⟩
        (str "a")).result = none ∧
      (normalize_username false strip_default ⟨1, [str "a x", str "\n"]⟩ ⟨0, []⟩
        (str "a")).state ≠ (⟨0, []⟩ : MapState) ∧
      (normalize_username false strip_default ⟨1, [str "a x", str "\n"]⟩ ⟨0, []⟩
        (str "a")).state.prev_map_mtime = 1 ∧
      dget ((normalize_username false strip_default ⟨1, [str "a x", str "\n"]⟩ ⟨0, []⟩
        (str "a")).state.username_map) (str "a") = some (str "x") := by
  refine ⟨by decide, by decide, by decide, by decide⟩

/-- C10: if a triggered reload meets a line with fewer than two
whitespace-separated tokens (for example a blank line), the call raises the
index error; because the recorded mtime was advanced before reading, the
entries inserted from the earlier lines of the new file remain in the table,
and a subsequent call with the file unchanged does not retry the load. -/
theorem C10_partial_reload (f : Bool) (ns : Str → Str) (fs : MapFile) (st : MapState)
    (u : Str) (good : List Str) (bad : Str) (rest : List Str)
    (hl : fs.lines = good ++ bad :: rest)
    (hg : ∀ line ∈ good, 2 ≤ (splitWs line).length)
    (hb : (splitWs bad).length < 2)
    (hm : st.prev_map_mtime < fs.mtime) :
    (normalize_username f ns fs st u).result = none ∧
    (normalize_username f ns fs st u).state.prev_map_mtime = fs.mtime ∧
    (normalize_username f ns fs st u).state.username_map =
      good.foldl (fun m2 line => dinsert m2 (line_pair line).1 (line_pair line).2)
        st.username_map ∧
    (normalize_username f ns fs (normalize_username f ns fs st u).state u).rebuilt = false ∧
    (normalize_username f ns fs (normalize_username f ns fs st u).state u).state =
      (normalize_username f ns fs st u).state := by
  have hload := load_lines_partial good bad rest hg hb st.username_map
  have hcall : normalize_username f ns fs st u =
      { state := ⟨fs.mtime,
          good.foldl (fun m2 line => dinsert m2 (line_pair line).1 (line_pair line).2)
            st.username_map⟩,
        result := none, stat_calls := 1, rebuilt := true } := by
    unfold normalize_username
    rw [if_pos hm, hl, hload]
  rw [hcall, normalize_noreload f ns fs _ u (Nat.lt_irrefl fs.mtime)]
  exact ⟨rfl, rfl, rfl, rfl, rfl⟩

/-- C10 witness: a file whose second line is blank loads its first line's
entry, raises, records the new mtime, and an immediate second call with the
unchanged file does not rebuild. -/
theorem C10_witness :
    (normalize_username false strip_default ⟨1, [str "a x", str "\n", str "b y"]⟩ ⟨0, []⟩
        (str "q")).result = none ∧
      (normalize_username false strip_default ⟨1, [str "a x", str "\n", str "b y"]⟩ ⟨0, []⟩
        (str "q")).state.prev_map_mtime = 1 := by
  have h := C10_partial_reload false strip_default ⟨1, [str "a x", str "\n", str "b y"]⟩
      ⟨0, []⟩ (str "q") [str "a x"] (str "\n") [str "b y"] (by decide) (by decide)
      (by decide) (by decide)
  exact ⟨h.1, h.2.1⟩

/-- C9 counterexample: the claim says the default pattern deletes everything
from the first at-sign to the end of the string; Python's `'.'` does not match
a newline and the unanchored `'$'` only matches at the end (or before a sole
trailing newline), so on `a@b\nc@d` `re.sub` removes only the final `@d` and
`normalize_username` (no reload pending, empty table) returns `a@b\nc`, not
the prefix `a` before the first at-sign. -/
theorem C9_counterexample :
    (normalize_username false strip_default ⟨0, []⟩ ⟨0, []⟩ (str "a@b\nc@d")).result =
        some (str "a@b\nc") ∧
      str "a@b\nc" ≠ (lower (str "a@b\nc@d")).takeWhile (fun c => c ≠ '@') := by
  constructor
  · decide
  · decide

/-- C9 amended: when the full-names flag is false, `normalize_username`
applies `re.sub`, which removes every non-overlapping match of the configured
pattern (not only the first); with the default pattern, for every username
whose lower-cased form contains no newline — so for every real-world username
— this deletes everything from the first at-sign (if any) to the end of the
string; the pattern admits at most one match, and a match cannot span a
newline, so a username with an interior newline after its at-signs is not
stripped there. -/
theorem C9_strip_semantics (v : Str) (h : '\n' ∉ v) :
    strip_default v = v.takeWhile (fun c => c ≠ '@') :=
  strip_default_no_newline v h

/-- C9 witness: the default pattern strips the domain from a plain username
and leaves an at-sign-free username unchanged. -/
theorem C9_witness :
    strip_default (str "fake@email.com") = str "fake" ∧
      strip_default (str "plainname") = str "plainname" := by
  constructor
  · have h := C9_strip_semantics (str "fake@email.com") (by decide)
    rw [h]
    decide
  · have h := C9_strip_semantics (str "plainname") (by decide)
    rw [h]
    decide
